import Mathlib

/-!
Verification of the progressive agent-fee calculation engine of
`src/AgentFeeCalculator.tsx` (repository `agent-fee-calculator`).

The calculation logic lives in the `calculationResult` memo (lines 80-138 of
the source).  JavaScript numbers are modelled by `JSNum`: the special values
`NaN`, `+Infinity`, `-Infinity` plus exact finite values represented by
rationals (the claims are stated over exact arithmetic; floating-point
rounding is out of scope).  The IEEE semantics of the special values for the
operations the source uses (`+`, `-`, `*`, `/`, `<`, `<=`, `Math.min`,
`Math.max`, `isNaN`) is embedded exactly.
-/

/-- Model of a JavaScript number: `NaN`, `+Infinity`, `-Infinity`, or a
finite value (represented exactly as a rational). -/
inductive JSNum where
  | nan : JSNum
  | inf : JSNum
  | ninf : JSNum
  | val : ℚ → JSNum
deriving DecidableEq

namespace JSNum

/-- JavaScript `isNaN`. -/
def jsIsNaN : JSNum → Bool
  | nan => true
  | _ => false

/-- JavaScript `<` (any comparison with `NaN` is false). -/
def jsLt : JSNum → JSNum → Bool
  | nan, _ => false
  | _, nan => false
  | ninf, ninf => false
  | ninf, _ => true
  | _, ninf => false
  | inf, _ => false
  | val _, inf => true
  | val a, val b => decide (a < b)

/-- JavaScript `<=` (any comparison with `NaN` is false). -/
def jsLe : JSNum → JSNum → Bool
  | nan, _ => false
  | _, nan => false
  | ninf, _ => true
  | _, ninf => false
  | _, inf => true
  | inf, val _ => false
  | val a, val b => decide (a ≤ b)

/-- JavaScript addition. -/
def jsAdd : JSNum → JSNum → JSNum
  | nan, _ => nan
  | _, nan => nan
  | inf, ninf => nan
  | ninf, inf => nan
  | inf, _ => inf
  | _, inf => inf
  | ninf, _ => ninf
  | _, ninf => ninf
  | val a, val b => val (a + b)

/-- JavaScript unary minus. -/
def jsNeg : JSNum → JSNum
  | nan => nan
  | inf => ninf
  | ninf => inf
  | val a => val (-a)

/-- JavaScript subtraction (`a - b = a + (-b)` holds exactly in IEEE). -/
def jsSub (a b : JSNum) : JSNum := jsAdd a (jsNeg b)

/-- JavaScript multiplication (signed zero is not modelled: `ℚ` has a single
zero, and `±∞ * 0 = NaN` regardless of the zero's sign). -/
def jsMul : JSNum → JSNum → JSNum
  | nan, _ => nan
  | _, nan => nan
  | inf, inf => inf
  | inf, ninf => ninf
  | ninf, inf => ninf
  | ninf, ninf => inf
  | inf, val b => if b = 0 then nan else if 0 < b then inf else ninf
  | val a, inf => if a = 0 then nan else if 0 < a then inf else ninf
  | ninf, val b => if b = 0 then nan else if 0 < b then ninf else inf
  | val a, ninf => if a = 0 then nan else if 0 < a then ninf else inf
  | val a, val b => val (a * b)

/-- JavaScript division (division by the single unsigned zero of `ℚ` follows
the positive-zero convention). -/
def jsDiv : JSNum → JSNum → JSNum
  | nan, _ => nan
  | _, nan => nan
  | inf, inf => nan
  | inf, ninf => nan
  | ninf, inf => nan
  | ninf, ninf => nan
  | inf, val b => if 0 ≤ b then inf else ninf
  | ninf, val b => if 0 ≤ b then ninf else inf
  | val _, inf => val 0
  | val _, ninf => val 0
  | val a, val b =>
      if b = 0 then (if a = 0 then nan else if 0 < a then inf else ninf)
      else val (a / b)

/-- JavaScript `Math.max` (returns `NaN` if any argument is `NaN`). -/
def jsMax : JSNum → JSNum → JSNum
  | nan, _ => nan
  | _, nan => nan
  | inf, _ => inf
  | _, inf => inf
  | ninf, b => b
  | a, ninf => a
  | val a, val b => val (max a b)

/-- JavaScript `Math.min` (returns `NaN` if any argument is `NaN`). -/
def jsMin : JSNum → JSNum → JSNum
  | nan, _ => nan
  | _, nan => nan
  | ninf, _ => ninf
  | _, ninf => ninf
  | inf, b => b
  | a, inf => a
  | val a, val b => val (min a b)

end JSNum

open JSNum

/-- Source `type ServiceType = 1 | 2 | 3` (goods / services / engineering). -/
inductive ServiceType where
  | goods : ServiceType
  | services : ServiceType
  | engineering : ServiceType
deriving DecidableEq, Fintype

/-- Source `type InputUnit = 'yuan' | 'wanyuan'`. -/
inductive InputUnit where
  | yuan : InputUnit
  | wanyuan : InputUnit
deriving DecidableEq, Fintype

/-- Source `TIERS` constant: the bracket upper limits (in yuan) with their
labels; the terminal limit is `Infinity`. -/
def TIERS : List (JSNum × String) :=
  [(JSNum.val 1000000, "100万元以下"),
   (JSNum.val 5000000, "100-500万元"),
   (JSNum.val 10000000, "500-1000万元"),
   (JSNum.val 50000000, "1000-5000万元"),
   (JSNum.val 100000000, "5000万元-1亿元"),
   (JSNum.val 1000000000, "1-10亿元"),
   (JSNum.inf, "10亿元以上")]

/-- Source `RATES` constant: per service type, the marginal rate (percent)
for each tier, in tier order. -/
def RATES : ServiceType → List ℚ
  | ServiceType.goods => [1.50, 1.10, 0.80, 0.50, 0.25, 0.05, 0.01]
  | ServiceType.services => [1.50, 0.80, 0.45, 0.25, 0.10, 0.05, 0.01]
  | ServiceType.engineering => [1.00, 0.70, 0.55, 0.35, 0.20, 0.05, 0.01]

/-- The tier list paired with the rates of a service type, as the source's
loop reads `TIERS[i]` and `currentRates[i]` at the same index. -/
def tierData (serviceType : ServiceType) : List ((JSNum × String) × ℚ) :=
  TIERS.zip (RATES serviceType)

/-- One line of the source's `breakdown` array.  The source stores the rate
as the display string `ratePercent.toFixed(2) + '%'`; here the numeric
percent is kept (the formatting is presentation-only). -/
structure BreakdownEntry where
  tierLabel : String
  ratePercent : ℚ
  amountInTier : JSNum
  feeForTier : JSNum
deriving DecidableEq

/-- The object returned by the source's `calculationResult` memo. -/
structure CalcResult where
  originalTotalFee : JSNum
  discountedFee : JSNum
  bidAmount : JSNum
  breakdown : List BreakdownEntry
  discountRate : JSNum
deriving DecidableEq

/-- The `for` loop of lines 96-124 of the source, as a recursion over the
remaining tier/rate pairs.  Arguments mirror the loop state: the index `i`
(only its positivity is read, by the `break` guard), `previousLimit`,
`remainingAmount`, the fee accumulator and the `breakdown` array built so
far. -/
def loopGo : List ((JSNum × String) × ℚ) → Nat → JSNum → JSNum → JSNum →
    List BreakdownEntry → List BreakdownEntry × JSNum
  | [], _, _, _, fee, acc => (acc, fee)
  | ((limit, label), ratePercent) :: rest, i, previousLimit, remaining, fee, acc =>
      let tierSpan := jsSub limit previousLimit
      let amountInTier := jsMin (jsMax (JSNum.val 0) remaining) tierSpan
      if jsLt (JSNum.val 0) amountInTier then
        let feeForTier := jsMul amountInTier (JSNum.val (ratePercent / 100))
        loopGo rest (i + 1) limit (jsSub remaining amountInTier)
          (jsAdd fee feeForTier)
          (acc ++ [⟨label, ratePercent, amountInTier, feeForTier⟩])
      else if jsLe remaining (JSNum.val 0) && decide (0 < i) then
        (acc, fee)
      else
        loopGo rest (i + 1) limit remaining fee acc

/-- The `calculationResult` memo of lines 80-138: `rawValue` and `discount`
are the `parseFloat` results of the two text inputs (so they range over all
JavaScript numbers, `NaN` included); `null` is `none`. -/
def calculationResult (rawValue : JSNum) (unit : InputUnit)
    (serviceType : ServiceType) (discount : JSNum) : Option CalcResult :=
  if jsIsNaN rawValue || jsLt rawValue (JSNum.val 0) then none
  else
    let bidAmount := if unit = InputUnit.wanyuan then jsMul rawValue (JSNum.val 10000)
      else rawValue
    let res := loopGo (tierData serviceType) 0 (JSNum.val 0) bidAmount (JSNum.val 0) []
    let originalTotalFee := res.2
    let discountRate := if jsIsNaN discount || jsLt discount (JSNum.val 0)
      then JSNum.val 100 else discount
    let discountedFee := jsMul originalTotalFee (jsDiv discountRate (JSNum.val 100))
    some { originalTotalFee := originalTotalFee, discountedFee := discountedFee,
           bidAmount := bidAmount, breakdown := res.1, discountRate := discountRate }

/-- Sum of the `amountInTier` fields of a breakdown, with JavaScript
addition. -/
def sumAmounts (es : List BreakdownEntry) : JSNum :=
  es.foldr (fun e s => jsAdd e.amountInTier s) (JSNum.val 0)

namespace JSNum

@[simp] lemma jsIsNaN_val (a : ℚ) : jsIsNaN (val a) = false := rfl

@[simp] lemma jsIsNaN_nan : jsIsNaN nan = true := rfl

@[simp] lemma jsIsNaN_inf : jsIsNaN inf = false := rfl

@[simp] lemma jsIsNaN_ninf : jsIsNaN ninf = false := rfl

@[simp] lemma jsLt_val_val (a b : ℚ) : jsLt (val a) (val b) = decide (a < b) := rfl

@[simp] lemma jsLt_val_inf (a : ℚ) : jsLt (val a) inf = true := rfl

@[simp] lemma jsLt_inf_any (b : JSNum) : jsLt inf b = false := by cases b <;> rfl

@[simp] lemma jsLt_nan_any (b : JSNum) : jsLt nan b = false := by cases b <;> rfl

@[simp] lemma jsLt_ninf_val (b : ℚ) : jsLt ninf (val b) = true := rfl

@[simp] lemma jsLe_val_val (a b : ℚ) : jsLe (val a) (val b) = decide (a ≤ b) := rfl

@[simp] lemma jsLe_nan_any (b : JSNum) : jsLe nan b = false := by cases b <;> rfl

@[simp] lemma jsLe_inf_val (b : ℚ) : jsLe inf (val b) = false := rfl

@[simp] lemma jsAdd_val_val (a b : ℚ) : jsAdd (val a) (val b) = val (a + b) := rfl

@[simp] lemma jsAdd_val_inf (a : ℚ) : jsAdd (val a) inf = inf := rfl

@[simp] lemma jsSub_val_val (a b : ℚ) : jsSub (val a) (val b) = val (a - b) := by
  show val (a + -b) = val (a - b)
  rw [← sub_eq_add_neg]

@[simp] lemma jsSub_inf_val (b : ℚ) : jsSub inf (val b) = inf := rfl

@[simp] lemma jsSub_inf_inf : jsSub inf inf = nan := rfl

@[simp] lemma jsMul_val_val (a b : ℚ) : jsMul (val a) (val b) = val (a * b) := rfl

@[simp] lemma jsMul_inf_val (b : ℚ) :
    jsMul inf (val b) = if b = 0 then nan else if 0 < b then inf else ninf := rfl

@[simp] lemma jsMul_val_inf (a : ℚ) :
    jsMul (val a) inf = if a = 0 then nan else if 0 < a then inf else ninf := rfl

@[simp] lemma jsMul_nan_any (b : JSNum) : jsMul nan b = nan := by cases b <;> rfl

@[simp] lemma jsDiv_val_val (a b : ℚ) :
    jsDiv (val a) (val b) =
      if b = 0 then (if a = 0 then nan else if 0 < a then inf else ninf)
      else val (a / b) := rfl

@[simp] lemma jsDiv_inf_val (b : ℚ) :
    jsDiv inf (val b) = if 0 ≤ b then inf else ninf := rfl

@[simp] lemma jsMax_val_val (a b : ℚ) : jsMax (val a) (val b) = val (max a b) := rfl

@[simp] lemma jsMax_val_inf (a : ℚ) : jsMax (val a) inf = inf := rfl

@[simp] lemma jsMax_val_nan (a : ℚ) : jsMax (val a) nan = nan := rfl

@[simp] lemma jsMin_val_val (a b : ℚ) : jsMin (val a) (val b) = val (min a b) := rfl

@[simp] lemma jsMin_val_inf (a : ℚ) : jsMin (val a) inf = val a := rfl

@[simp] lemma jsMin_inf_val (b : ℚ) : jsMin inf (val b) = val b := rfl

@[simp] lemma jsMin_nan_any (b : JSNum) : jsMin nan b = nan := by cases b <;> rfl

/-- Multiplying any JavaScript number by the finite value `1` is the
identity (this also holds for `NaN` and the infinities). -/
@[simp] lemma jsMul_one (a : JSNum) : jsMul a (val 1) = a := by
  cases a with
  | nan => rfl
  | inf => simp [jsMul]
  | ninf => simp [jsMul]
  | val q => simp [jsMul]

end JSNum

/-- Wellformedness of a tier/rate list relative to a previous bound: finite,
strictly increasing limits followed by a single terminal unbounded tier.
The `TIERS`/`RATES` data satisfies this (see `WFT_tierData`). -/
def WFT : ℚ → List ((JSNum × String) × ℚ) → Prop
  | _, [] => False
  | prev, ((JSNum.val limit, _), _) :: rest => prev < limit ∧ WFT limit rest
  | _, ((JSNum.inf, _), _) :: rest => rest = []
  | _, ((JSNum.nan, _), _) :: _ => False
  | _, ((JSNum.ninf, _), _) :: _ => False

/-- Reference form of the breakdown the loop produces on a finite
non-negative remaining amount `b`, with `prev` the previous limit. -/
def entriesOf : List ((JSNum × String) × ℚ) → ℚ → ℚ → List BreakdownEntry
  | [], _, _ => []
  | ((JSNum.val limit, label), r) :: rest, prev, b =>
      let a := min b (limit - prev)
      if 0 < a then
        ⟨label, r, JSNum.val a, JSNum.val (a * (r / 100))⟩ :: entriesOf rest limit (b - a)
      else entriesOf rest limit b
  | ((JSNum.inf, label), r) :: _, _, b =>
      if 0 < b then [⟨label, r, JSNum.val b, JSNum.val (b * (r / 100))⟩] else []
  | ((JSNum.nan, _), _) :: _, _, _ => []
  | ((JSNum.ninf, _), _) :: _, _, _ => []

/-- Reference form of the undiscounted fee the loop accumulates on a finite
non-negative remaining amount `b`. -/
def feeOf : List ((JSNum × String) × ℚ) → ℚ → ℚ → ℚ
  | [], _, _ => 0
  | ((JSNum.val limit, _), r) :: rest, prev, b =>
      let a := min b (limit - prev)
      a * (r / 100) + feeOf rest limit (b - a)
  | ((JSNum.inf, _), r) :: _, _, b => b * (r / 100)
  | ((JSNum.nan, _), _) :: _, _, _ => 0
  | ((JSNum.ninf, _), _) :: _, _, _ => 0

lemma feeOf_zero (tiers : List ((JSNum × String) × ℚ)) :
    ∀ prev : ℚ, WFT prev tiers → feeOf tiers prev 0 = 0 := by
  induction tiers with
  | nil => intro prev h; simp [WFT] at h
  | cons t rest ih =>
    obtain ⟨⟨limit, label⟩, r⟩ := t
    intro prev h
    cases limit with
    | nan => simp [WFT] at h
    | ninf => simp [WFT] at h
    | inf => simp [feeOf]
    | val L =>
      simp only [WFT] at h
      have hspan : (0 : ℚ) ≤ L - prev := by linarith [h.1]
      simp only [feeOf, min_eq_left hspan, zero_mul, zero_add, sub_zero]
      exact ih L h.2

lemma entriesOf_zero (tiers : List ((JSNum × String) × ℚ)) :
    ∀ prev : ℚ, WFT prev tiers → entriesOf tiers prev 0 = [] := by
  induction tiers with
  | nil => intro prev h; simp [WFT] at h
  | cons t rest ih =>
    obtain ⟨⟨limit, label⟩, r⟩ := t
    intro prev h
    cases limit with
    | nan => simp [WFT] at h
    | ninf => simp [WFT] at h
    | inf => simp [entriesOf]
    | val L =>
      simp only [WFT] at h
      have hspan : (0 : ℚ) ≤ L - prev := by linarith [h.1]
      simp only [entriesOf, min_eq_left hspan, lt_self_iff_false, if_false]
      exact ih L h.2

/-- Master specification of the source loop: on a wellformed tier list and a
finite non-negative remaining amount, the loop extends the accumulated
breakdown by `entriesOf` and the fee accumulator by `feeOf`. -/
theorem loopGo_spec (tiers : List ((JSNum × String) × ℚ)) :
    ∀ (prev b fee0 : ℚ) (i : Nat) (acc : List BreakdownEntry),
      WFT prev tiers → 0 ≤ b →
      loopGo tiers i (JSNum.val prev) (JSNum.val b) (JSNum.val fee0) acc =
        (acc ++ entriesOf tiers prev b, JSNum.val (fee0 + feeOf tiers prev b)) := by
  induction tiers with
  | nil => intro prev b fee0 i acc h _; simp [WFT] at h
  | cons t rest ih =>
    obtain ⟨⟨limit, label⟩, r⟩ := t
    intro prev b fee0 i acc h hb
    cases limit with
    | nan => simp [WFT] at h
    | ninf => simp [WFT] at h
    | val L =>
      simp only [WFT] at h
      obtain ⟨hpL, hrest⟩ := h
      have hspan : (0 : ℚ) < L - prev := by linarith
      simp only [loopGo, jsSub_val_val, jsMax_val_val, jsMin_val_val, jsLt_val_val,
        jsMul_val_val, jsAdd_val_val, jsLe_val_val, max_eq_right hb, decide_eq_true_eq]
      by_cases ha : 0 < min b (L - prev)
      · rw [if_pos ha,
          ih L (b - min b (L - prev)) (fee0 + min b (L - prev) * (r / 100)) (i + 1) _
            hrest (by simp [sub_nonneg, min_le_left])]
        simp only [entriesOf, feeOf, if_pos ha, List.append_assoc, List.singleton_append,
          Prod.mk.injEq, add_assoc]
      · have hamin : min b (L - prev) = 0 :=
          le_antisymm (not_lt.mp ha) (le_min hb (le_of_lt hspan))
        have hb0 : b = 0 := by
          rcases le_or_lt b (L - prev) with h' | h'
          · rw [min_eq_left h'] at hamin; exact hamin
          · rw [min_eq_right h'.le] at hamin; linarith
        subst hb0
        rw [if_neg ha]
        cases i with
        | zero =>
          rw [if_neg (by simp)]
          rw [ih L 0 fee0 (0 + 1) acc hrest le_rfl]
          simp only [entriesOf, feeOf, hamin, lt_self_iff_false, if_false, zero_mul,
            zero_add, sub_zero]
        | succ n =>
          rw [if_pos (by simp)]
          simp only [entriesOf, feeOf, hamin, lt_self_iff_false, if_false, zero_mul,
            zero_add, sub_zero, entriesOf_zero rest L hrest, feeOf_zero rest L hrest,
            List.append_nil, add_zero]
    | inf =>
      simp only [WFT] at h
      subst h
      simp only [loopGo, jsSub_inf_val, jsMax_val_val, max_eq_right hb, jsMin_val_inf,
        jsLt_val_val, jsMul_val_val, jsAdd_val_val, jsLe_val_val, decide_eq_true_eq]
      by_cases hb' : 0 < b
      · rw [if_pos hb']
        simp only [loopGo, entriesOf, feeOf, if_pos hb', List.append_assoc,
          List.singleton_append]
      · have hb0 : b = 0 := le_antisymm (not_lt.mp hb') hb
        subst hb0
        rw [if_neg hb']
        cases i with
        | zero =>
          rw [if_neg (by simp)]
          simp only [loopGo, entriesOf, feeOf, lt_self_iff_false, if_false, zero_mul,
            add_zero, List.append_nil]
        | succ n =>
          rw [if_pos (by simp)]
          simp only [entriesOf, feeOf, lt_self_iff_false, if_false, zero_mul, add_zero,
            List.append_nil]

lemma WFT_tierData (st : ServiceType) : WFT 0 (tierData st) := by
  cases st <;> norm_num [tierData, TIERS, RATES, WFT]

lemma tierData_rates_nonneg (st : ServiceType) : ∀ t ∈ tierData st, 0 ≤ t.2 := by
  intro t ht
  cases st <;>
  · simp only [tierData, TIERS, RATES, List.zip_cons_cons, List.zip_nil_right,
      List.mem_cons, List.not_mem_nil, or_false] at ht
    rcases ht with rfl | rfl | rfl | rfl | rfl | rfl | rfl <;> norm_num

/-- The base amount fed to the tier loop, per unit (line 87 of the source). -/
def bidQ (unit : InputUnit) (q : ℚ) : ℚ :=
  if unit = InputUnit.wanyuan then q * 10000 else q

/-- The effective discount rate after the fallback of line 128 of the
source. -/
def discountRateOf (discount : JSNum) : JSNum :=
  if jsIsNaN discount || jsLt discount (JSNum.val 0) then JSNum.val 100 else discount

/-- Closed form of `calculationResult` on a finite non-negative raw value. -/
theorem calculationResult_val_eq (q : ℚ) (hq : 0 ≤ q) (u : InputUnit)
    (st : ServiceType) (d : JSNum) :
    calculationResult (JSNum.val q) u st d = some
      { originalTotalFee := JSNum.val (feeOf (tierData st) 0 (bidQ u q)),
        discountedFee := jsMul (JSNum.val (feeOf (tierData st) 0 (bidQ u q)))
          (jsDiv (discountRateOf d) (JSNum.val 100)),
        bidAmount := JSNum.val (bidQ u q),
        breakdown := entriesOf (tierData st) 0 (bidQ u q),
        discountRate := discountRateOf d } := by
  have hguard : (jsIsNaN (JSNum.val q) || jsLt (JSNum.val q) (JSNum.val 0)) = false := by
    simp [not_lt.mpr hq]
  have hbid : 0 ≤ bidQ u q := by
    cases u with
    | yuan => simpa [bidQ] using hq
    | wanyuan => simp only [bidQ, if_pos rfl]; positivity
  have hbid' : (if u = InputUnit.wanyuan then jsMul (JSNum.val q) (JSNum.val 10000)
      else JSNum.val q) = JSNum.val (bidQ u q) := by
    cases u <;> simp [bidQ]
  simp only [calculationResult, hguard, Bool.false_eq_true, if_false, hbid']
  rw [loopGo_spec (tierData st) 0 (bidQ u q) 0 0 [] (WFT_tierData st) hbid]
  simp [discountRateOf]

@[simp] lemma sumAmounts_nil : sumAmounts [] = JSNum.val 0 := rfl

@[simp] lemma sumAmounts_cons (e : BreakdownEntry) (es : List BreakdownEntry) :
    sumAmounts (e :: es) = jsAdd e.amountInTier (sumAmounts es) := rfl

lemma sumAmounts_entriesOf (tiers : List ((JSNum × String) × ℚ)) :
    ∀ (prev b : ℚ), WFT prev tiers → 0 ≤ b →
    sumAmounts (entriesOf tiers prev b) = JSNum.val b := by
  induction tiers with
  | nil => intro prev b h _; simp [WFT] at h
  | cons t rest ih =>
    obtain ⟨⟨limit, label⟩, r⟩ := t
    intro prev b h hb
    cases limit with
    | nan => simp [WFT] at h
    | ninf => simp [WFT] at h
    | val L =>
      simp only [WFT] at h
      obtain ⟨hpL, hrest⟩ := h
      by_cases ha : 0 < min b (L - prev)
      · simp only [entriesOf, if_pos ha, sumAmounts_cons]
        rw [ih L (b - min b (L - prev)) hrest (by simp [sub_nonneg, min_le_left])]
        rw [jsAdd_val_val]
        congr 1
        ring
      · simp only [entriesOf, if_neg ha]
        exact ih L b hrest hb
    | inf =>
      simp only [WFT] at h
      by_cases hb' : 0 < b
      · simp [entriesOf, if_pos hb']
      · have hb0 : b = 0 := le_antisymm (not_lt.mp hb') hb
        subst hb0
        simp [entriesOf]

lemma entriesOf_ne_nil (tiers : List ((JSNum × String) × ℚ)) (prev b : ℚ)
    (h : WFT prev tiers) (hb : 0 < b) : entriesOf tiers prev b ≠ [] := by
  cases tiers with
  | nil => simp [WFT] at h
  | cons t rest =>
    obtain ⟨⟨limit, label⟩, r⟩ := t
    cases limit with
    | nan => simp [WFT] at h
    | ninf => simp [WFT] at h
    | val L =>
      simp only [WFT] at h
      have hmin : 0 < min b (L - prev) := lt_min hb (by linarith [h.1])
      simp only [entriesOf]
      rw [if_pos hmin]
      simp
    | inf => simp [entriesOf, if_pos hb]

lemma feeOf_mono (tiers : List ((JSNum × String) × ℚ)) :
    ∀ (prev a b : ℚ), WFT prev tiers → (∀ t ∈ tiers, 0 ≤ t.2) →
    0 ≤ a → a ≤ b → feeOf tiers prev a ≤ feeOf tiers prev b := by
  induction tiers with
  | nil => intro prev a b h _ _ _; simp [WFT] at h
  | cons t rest ih =>
    obtain ⟨⟨limit, label⟩, r⟩ := t
    intro prev a b h hr ha hab
    have hr0 : (0 : ℚ) ≤ r := by
      simpa using hr ((limit, label), r) (List.mem_cons_self _ _)
    have hrrest : ∀ t ∈ rest, 0 ≤ t.2 := fun t ht => hr t (List.mem_cons_of_mem _ ht)
    have hdiv : (0 : ℚ) ≤ r / 100 := by positivity
    cases limit with
    | nan => simp [WFT] at h
    | ninf => simp [WFT] at h
    | val L =>
      simp only [WFT] at h
      obtain ⟨hpL, hrest⟩ := h
      simp only [feeOf]
      have hmin : min a (L - prev) ≤ min b (L - prev) := min_le_min hab le_rfl
      have htail1 : (0 : ℚ) ≤ a - min a (L - prev) := by simp [sub_nonneg, min_le_left]
      have htail2 : a - min a (L - prev) ≤ b - min b (L - prev) := by
        rcases le_total a (L - prev) with h' | h'
        · rw [min_eq_left h']
          linarith [min_le_left b (L - prev)]
        · rw [min_eq_right h', min_eq_right (le_trans h' hab)]
          linarith
      exact add_le_add (mul_le_mul_of_nonneg_right hmin hdiv)
        (ih L _ _ hrest hrrest htail1 htail2)
    | inf =>
      simp only [feeOf]
      exact mul_le_mul_of_nonneg_right hab hdiv

lemma bidQ_nonneg (u : InputUnit) (q : ℚ) (hq : 0 ≤ q) : 0 ≤ bidQ u q := by
  cases u with
  | yuan => simpa [bidQ] using hq
  | wanyuan => simp only [bidQ, if_pos rfl]; positivity

/-- C1: Conservation — for every service category, unit and discount, and
every finite `baseAmount ≥ 0`, the `amountInTier` fields of the breakdown
sum exactly (over exact arithmetic) to the base amount fed to the tier loop,
which the result reports as `bidAmount`. -/
theorem breakdown_conservation (st : ServiceType) (u : InputUnit) (d : JSNum)
    (q : ℚ) (hq : 0 ≤ q) (r : CalcResult)
    (hr : calculationResult (JSNum.val q) u st d = some r) :
    sumAmounts r.breakdown = r.bidAmount := by
  rw [calculationResult_val_eq q hq u st d] at hr
  obtain rfl := Option.some.inj hr
  show sumAmounts (entriesOf (tierData st) 0 (bidQ u q)) = JSNum.val (bidQ u q)
  exact sumAmounts_entriesOf (tierData st) 0 (bidQ u q) (WFT_tierData st)
    (bidQ_nonneg u q hq)

set_option maxHeartbeats 1000000 in
/-- Witness for C1 at the Goods category, 6,000,000 yuan, 85% discount. -/
theorem breakdown_conservation_witness :
    sumAmounts [⟨"100万元以下", 1.50, JSNum.val 1000000, JSNum.val 15000⟩,
      ⟨"100-500万元", 1.10, JSNum.val 4000000, JSNum.val 44000⟩,
      ⟨"500-1000万元", 0.80, JSNum.val 1000000, JSNum.val 8000⟩] = JSNum.val 6000000 := by
  have h := breakdown_conservation ServiceType.goods InputUnit.yuan (JSNum.val 85)
    6000000 (by norm_num)
    ⟨JSNum.val 67000, JSNum.val 56950, JSNum.val 6000000,
      [⟨"100万元以下", 1.50, JSNum.val 1000000, JSNum.val 15000⟩,
       ⟨"100-500万元", 1.10, JSNum.val 4000000, JSNum.val 44000⟩,
       ⟨"500-1000万元", 0.80, JSNum.val 1000000, JSNum.val 8000⟩], JSNum.val 85⟩
    (by norm_num +decide [calculationResult, tierData, TIERS, RATES, loopGo,
      min_def, max_def])
  simpa using h

set_option maxHeartbeats 1000000 in
/-- C2: the Goods scenario — base amount 6,000,000 with 85% discount yields
exactly three contributions (1,000,000 at 1.50% = 15,000; 4,000,000 at
1.10% = 44,000; 1,000,000 at 0.80% = 8,000), `originalFee = 67,000` and
`discountedFee = 56,950`. -/
theorem goods_scenario_six_million :
    calculationResult (JSNum.val 6000000) InputUnit.yuan ServiceType.goods
      (JSNum.val 85) =
    some ⟨JSNum.val 67000, JSNum.val 56950, JSNum.val 6000000,
      [⟨"100万元以下", 1.50, JSNum.val 1000000, JSNum.val 15000⟩,
       ⟨"100-500万元", 1.10, JSNum.val 4000000, JSNum.val 44000⟩,
       ⟨"500-1000万元", 0.80, JSNum.val 1000000, JSNum.val 8000⟩], JSNum.val 85⟩ := by
  norm_num +decide [calculationResult, tierData, TIERS, RATES, loopGo, min_def, max_def]

set_option maxHeartbeats 1000000 in
/-- C3 counterexample: an infinite base amount is NOT rejected — the guard at
line 82 only checks `isNaN(rawValue) || rawValue < 0`, which `+Infinity`
passes, so a result is produced, contradicting the claim that every
non-finite input produces no result. -/
theorem infinite_amount_produces_result :
    (calculationResult JSNum.inf InputUnit.yuan ServiceType.goods
      (JSNum.val 100)).isSome = true := by
  norm_num +decide [calculationResult, tierData, TIERS, RATES, loopGo, min_def, max_def]

/-- C3 (amended): for every input whose parsed base amount is `NaN`
(missing/non-numeric) or negative, the calculation returns `null` — no
result at all, hence no partial breakdown and no zero result.  (An infinite
base amount, by contrast, passes the guard.) -/
theorem nan_or_negative_amount_no_result (raw : JSNum) (u : InputUnit)
    (st : ServiceType) (d : JSNum)
    (h : jsIsNaN raw = true ∨ jsLt raw (JSNum.val 0) = true) :
    calculationResult raw u st d = none := by
  rcases h with h | h <;> simp [calculationResult, h]

/-- Witness for the amended C3 at `NaN` and at `-1`. -/
theorem nan_or_negative_amount_no_result_witness :
    calculationResult JSNum.nan InputUnit.yuan ServiceType.goods (JSNum.val 100)
      = none ∧
    calculationResult (JSNum.val (-1)) InputUnit.yuan ServiceType.goods (JSNum.val 100)
      = none :=
  ⟨nan_or_negative_amount_no_result _ _ _ _ (Or.inl rfl),
   nan_or_negative_amount_no_result _ _ _ _ (Or.inr (by norm_num))⟩

set_option maxHeartbeats 1000000 in
/-- C4 counterexample: a discount of `+Infinity` is not a finite number, yet
it is NOT substituted by 100 — the fallback at line 128 only checks `isNaN`
and negativity, so `discountRate` stays `Infinity` and `discountedFee`
becomes `Infinity`, different from `originalFee = 15,000`. -/
theorem infinite_discount_not_substituted :
    (calculationResult (JSNum.val 1000000) InputUnit.yuan ServiceType.goods
      JSNum.inf).map (fun r => (r.discountRate, r.discountedFee, r.originalTotalFee)) =
      some (JSNum.inf, JSNum.inf, JSNum.val 15000) ∧
    JSNum.inf ≠ JSNum.val 100 ∧ JSNum.inf ≠ JSNum.val 15000 := by
  refine ⟨?_, by simp, by simp⟩
  norm_num +decide [calculationResult, tierData, TIERS, RATES, loopGo, min_def, max_def]

/-- C4 (amended): whenever the discount is `NaN` or negative, the fallback
substitutes `discountRate = 100`, and then `discountedFee = originalFee`;
in particular `-5` and `NaN` both trigger the fallback.  This is a fallback,
not an error (a result is still produced whenever the amount is valid). -/
theorem discount_fallback_nan_or_negative (raw : JSNum) (u : InputUnit)
    (st : ServiceType) (d : JSNum)
    (hd : (jsIsNaN d || jsLt d (JSNum.val 0)) = true) (r : CalcResult)
    (hr : calculationResult raw u st d = some r) :
    r.discountRate = JSNum.val 100 ∧ r.discountedFee = r.originalTotalFee := by
  by_cases hraw : (jsIsNaN raw || jsLt raw (JSNum.val 0)) = true
  · simp [calculationResult, hraw] at hr
  · rw [Bool.not_eq_true] at hraw
    simp only [calculationResult, hraw, Bool.false_eq_true, if_false,
      Option.some.injEq] at hr
    rw [if_pos hd] at hr
    obtain rfl := hr
    refine ⟨rfl, ?_⟩
    show jsMul _ (jsDiv (JSNum.val 100) (JSNum.val 100)) = _
    have h1 : jsDiv (JSNum.val 100) (JSNum.val 100) = JSNum.val 1 := by
      norm_num [jsDiv_val_val]
    rw [h1, jsMul_one]

set_option maxHeartbeats 1000000 in
/-- Witness for the amended C4 at a base amount of 50,000 yuan and a
discount of `-5`. -/
theorem discount_fallback_nan_or_negative_witness :
    (⟨JSNum.val 750, JSNum.val 750, JSNum.val 50000,
      [⟨"100万元以下", 1.50, JSNum.val 50000, JSNum.val 750⟩],
      JSNum.val 100⟩ : CalcResult).discountRate = JSNum.val 100 ∧
    (⟨JSNum.val 750, JSNum.val 750, JSNum.val 50000,
      [⟨"100万元以下", 1.50, JSNum.val 50000, JSNum.val 750⟩],
      JSNum.val 100⟩ : CalcResult).discountedFee =
    (⟨JSNum.val 750, JSNum.val 750, JSNum.val 50000,
      [⟨"100万元以下", 1.50, JSNum.val 50000, JSNum.val 750⟩],
      JSNum.val 100⟩ : CalcResult).originalTotalFee :=
  discount_fallback_nan_or_negative (JSNum.val 50000) InputUnit.yuan
    ServiceType.goods (JSNum.val (-5)) (by norm_num) _
    (by norm_num +decide [calculationResult, tierData, TIERS, RATES, loopGo,
      min_def, max_def])

/-- C5: Discount linearity — for every valid base amount and every finite
non-negative discount (values above 100 included, accepted as-is),
`discountedFee = originalFee * (discountRate / 100)`, and
`discountedFee = originalFee` when the effective discount is 100. -/
theorem discount_linearity (st : ServiceType) (u : InputUnit) (q d : ℚ)
    (hq : 0 ≤ q) (hd : 0 ≤ d) (r : CalcResult)
    (hr : calculationResult (JSNum.val q) u st (JSNum.val d) = some r) :
    r.discountRate = JSNum.val d ∧
    r.discountedFee = jsMul r.originalTotalFee (JSNum.val (d / 100)) ∧
    (d = 100 → r.discountedFee = r.originalTotalFee) := by
  rw [calculationResult_val_eq q hq u st (JSNum.val d)] at hr
  obtain rfl := Option.some.inj hr
  have hdr : discountRateOf (JSNum.val d) = JSNum.val d := by
    simp [discountRateOf, not_lt.mpr hd]
  refine ⟨hdr, ?_, ?_⟩
  · simp only [hdr, jsDiv_val_val]
    norm_num
  · intro h100
    subst h100
    have h1 : jsDiv (discountRateOf (JSNum.val 100)) (JSNum.val 100) = JSNum.val 1 := by
      rw [hdr]
      norm_num [jsDiv_val_val]
    simp only [h1, jsMul_one]

set_option maxHeartbeats 1000000 in
/-- Witness for C5 at the Goods category, 2,000,000 yuan and a markup
discount of 120 (accepted as-is, above 100). -/
theorem discount_linearity_witness :
    (⟨JSNum.val 26000, JSNum.val 31200, JSNum.val 2000000,
      [⟨"100万元以下", 1.50, JSNum.val 1000000, JSNum.val 15000⟩,
       ⟨"100-500万元", 1.10, JSNum.val 1000000, JSNum.val 11000⟩],
      JSNum.val 120⟩ : CalcResult).discountRate = JSNum.val 120 ∧
    (⟨JSNum.val 26000, JSNum.val 31200, JSNum.val 2000000,
      [⟨"100万元以下", 1.50, JSNum.val 1000000, JSNum.val 15000⟩,
       ⟨"100-500万元", 1.10, JSNum.val 1000000, JSNum.val 11000⟩],
      JSNum.val 120⟩ : CalcResult).discountedFee =
      jsMul (⟨JSNum.val 26000, JSNum.val 31200, JSNum.val 2000000,
        [⟨"100万元以下", 1.50, JSNum.val 1000000, JSNum.val 15000⟩,
         ⟨"100-500万元", 1.10, JSNum.val 1000000, JSNum.val 11000⟩],
        JSNum.val 120⟩ : CalcResult).originalTotalFee (JSNum.val (120 / 100)) ∧
    ((120 : ℚ) = 100 →
      (⟨JSNum.val 26000, JSNum.val 31200, JSNum.val 2000000,
        [⟨"100万元以下", 1.50, JSNum.val 1000000, JSNum.val 15000⟩,
         ⟨"100-500万元", 1.10, JSNum.val 1000000, JSNum.val 11000⟩],
        JSNum.val 120⟩ : CalcResult).discountedFee =
      (⟨JSNum.val 26000, JSNum.val 31200, JSNum.val 2000000,
        [⟨"100万元以下", 1.50, JSNum.val 1000000, JSNum.val 15000⟩,
         ⟨"100-500万元", 1.10, JSNum.val 1000000, JSNum.val 11000⟩],
        JSNum.val 120⟩ : CalcResult).originalTotalFee) :=
  discount_linearity ServiceType.goods InputUnit.yuan 2000000 120 (by norm_num)
    (by norm_num) _
    (by norm_num +decide [calculationResult, tierData, TIERS, RATES, loopGo,
      min_def, max_def])

/-- C6: for every category, unit and discount, a zero base amount still
produces a result, with an empty breakdown and zero fee, while every
positive base amount produces a non-empty breakdown. -/
theorem breakdown_empty_iff_zero_base (st : ServiceType) (u : InputUnit) (d : JSNum) :
    ((calculationResult (JSNum.val 0) u st d).isSome = true ∧
      ∀ r : CalcResult, calculationResult (JSNum.val 0) u st d = some r →
        r.breakdown = [] ∧ r.originalTotalFee = JSNum.val 0) ∧
    ∀ q : ℚ, 0 < q → ∀ r : CalcResult,
      calculationResult (JSNum.val q) u st d = some r → r.breakdown ≠ [] := by
  have hbid0 : bidQ u (0 : ℚ) = 0 := by cases u <;> simp [bidQ]
  refine ⟨⟨?_, ?_⟩, ?_⟩
  · rw [calculationResult_val_eq 0 le_rfl u st d]; rfl
  · intro r hr
    rw [calculationResult_val_eq 0 le_rfl u st d] at hr
    obtain rfl := Option.some.inj hr
    constructor
    · show entriesOf (tierData st) 0 (bidQ u 0) = []
      rw [hbid0]
      exact entriesOf_zero (tierData st) 0 (WFT_tierData st)
    · show JSNum.val (feeOf (tierData st) 0 (bidQ u 0)) = JSNum.val 0
      rw [hbid0, feeOf_zero (tierData st) 0 (WFT_tierData st)]
  · intro q hq r hr
    rw [calculationResult_val_eq q hq.le u st d] at hr
    obtain rfl := Option.some.inj hr
    show entriesOf (tierData st) 0 (bidQ u q) ≠ []
    refine entriesOf_ne_nil (tierData st) 0 (bidQ u q) (WFT_tierData st) ?_
    cases u with
    | yuan => simpa [bidQ] using hq
    | wanyuan =>
      simp only [bidQ, if_pos rfl]
      exact mul_pos hq (by norm_num)

set_option maxHeartbeats 1000000 in
/-- Witness for C6: zero base amount produces a result, and the positive
base amount 1,000,000 produces a non-empty breakdown. -/
theorem breakdown_empty_iff_zero_base_witness :
    (calculationResult (JSNum.val 0) InputUnit.yuan ServiceType.goods
      (JSNum.val 100)).isSome = true ∧
    (⟨JSNum.val 15000, JSNum.val 15000, JSNum.val 1000000,
      [⟨"100万元以下", 1.50, JSNum.val 1000000, JSNum.val 15000⟩],
      JSNum.val 100⟩ : CalcResult).breakdown ≠ [] :=
  ⟨(breakdown_empty_iff_zero_base ServiceType.goods InputUnit.yuan
      (JSNum.val 100)).1.1,
   (breakdown_empty_iff_zero_base ServiceType.goods InputUnit.yuan
      (JSNum.val 100)).2 1000000 (by norm_num) _
      (by norm_num +decide [calculationResult, tierData, TIERS, RATES, loopGo,
        min_def, max_def])⟩

set_option maxHeartbeats 4000000 in
/-- C7: a base amount exactly equal to a finite bracket upper bound is fully
allocated to brackets at or below that bound — for each of the six finite
boundaries and every category, the breakdown contains no entry labelled with
the bracket whose range begins at that boundary. -/
theorem boundary_allocated_to_lower_bracket (st : ServiceType) :
    ((calculationResult (JSNum.val 1000000) InputUnit.yuan st (JSNum.val 100)).map
      (fun r => r.breakdown.all (fun e => !(e.tierLabel == "100-500万元"))))
      = some true ∧
    ((calculationResult (JSNum.val 5000000) InputUnit.yuan st (JSNum.val 100)).map
      (fun r => r.breakdown.all (fun e => !(e.tierLabel == "500-1000万元"))))
      = some true ∧
    ((calculationResult (JSNum.val 10000000) InputUnit.yuan st (JSNum.val 100)).map
      (fun r => r.breakdown.all (fun e => !(e.tierLabel == "1000-5000万元"))))
      = some true ∧
    ((calculationResult (JSNum.val 50000000) InputUnit.yuan st (JSNum.val 100)).map
      (fun r => r.breakdown.all (fun e => !(e.tierLabel == "5000万元-1亿元"))))
      = some true ∧
    ((calculationResult (JSNum.val 100000000) InputUnit.yuan st (JSNum.val 100)).map
      (fun r => r.breakdown.all (fun e => !(e.tierLabel == "1-10亿元"))))
      = some true ∧
    ((calculationResult (JSNum.val 1000000000) InputUnit.yuan st (JSNum.val 100)).map
      (fun r => r.breakdown.all (fun e => !(e.tierLabel == "10亿元以上"))))
      = some true := by
  cases st <;> refine ⟨?_, ?_, ?_, ?_, ?_, ?_⟩ <;>
    norm_num +decide [calculationResult, tierData, TIERS, RATES, loopGo,
      min_def, max_def]

/-- C8: Monotonicity — for a fixed category (and unit and discount), the
undiscounted fee is non-decreasing in the base amount: `0 ≤ a ≤ b` implies
`originalFee(a) ≤ originalFee(b)` (with JavaScript comparison). -/
theorem originalFee_monotone (st : ServiceType) (u : InputUnit) (d : JSNum)
    (a b : ℚ) (ha : 0 ≤ a) (hab : a ≤ b) (ra rb : CalcResult)
    (hra : calculationResult (JSNum.val a) u st d = some ra)
    (hrb : calculationResult (JSNum.val b) u st d = some rb) :
    jsLe ra.originalTotalFee rb.originalTotalFee = true := by
  rw [calculationResult_val_eq a ha u st d] at hra
  rw [calculationResult_val_eq b (ha.trans hab) u st d] at hrb
  obtain rfl := Option.some.inj hra
  obtain rfl := Option.some.inj hrb
  show jsLe (JSNum.val (feeOf (tierData st) 0 (bidQ u a)))
    (JSNum.val (feeOf (tierData st) 0 (bidQ u b))) = true
  rw [jsLe_val_val, decide_eq_true_eq]
  refine feeOf_mono (tierData st) 0 (bidQ u a) (bidQ u b) (WFT_tierData st)
    (tierData_rates_nonneg st) (bidQ_nonneg u a ha) ?_
  cases u with
  | yuan => simpa [bidQ] using hab
  | wanyuan =>
    simp only [bidQ, if_pos rfl]
    exact mul_le_mul_of_nonneg_right hab (by norm_num)

set_option maxHeartbeats 1000000 in
/-- Witness for C8: Goods, 1,000,000 ≤ 6,000,000 at 85% discount. -/
theorem originalFee_monotone_witness :
    jsLe (⟨JSNum.val 15000, JSNum.val 12750, JSNum.val 1000000,
      [⟨"100万元以下", 1.50, JSNum.val 1000000, JSNum.val 15000⟩],
      JSNum.val 85⟩ : CalcResult).originalTotalFee
    (⟨JSNum.val 67000, JSNum.val 56950, JSNum.val 6000000,
      [⟨"100万元以下", 1.50, JSNum.val 1000000, JSNum.val 15000⟩,
       ⟨"100-500万元", 1.10, JSNum.val 4000000, JSNum.val 44000⟩,
       ⟨"500-1000万元", 0.80, JSNum.val 1000000, JSNum.val 8000⟩],
      JSNum.val 85⟩ : CalcResult).originalTotalFee = true :=
  originalFee_monotone ServiceType.goods InputUnit.yuan (JSNum.val 85)
    1000000 6000000 (by norm_num) (by norm_num) _ _
    (by norm_num +decide [calculationResult, tierData, TIERS, RATES, loopGo,
      min_def, max_def])
    (by norm_num +decide [calculationResult, tierData, TIERS, RATES, loopGo,
      min_def, max_def])

/-- C9: the static rate-schedule data satisfies the registry invariants —
bracket upper bounds strictly increasing, exactly one unbounded bound which
is the last, one rate per bracket for every category, all rates
non-negative. -/
theorem rate_schedule_invariants :
    List.Chain' (fun a b => jsLt a b = true) (TIERS.map Prod.fst) ∧
    (TIERS.map Prod.fst).count JSNum.inf = 1 ∧
    (TIERS.map Prod.fst).getLast? = some JSNum.inf ∧
    (∀ st : ServiceType, (RATES st).length = TIERS.length) ∧
    (∀ st : ServiceType, (RATES st).all (fun x => decide (0 ≤ x)) = true) := by
  refine ⟨?_, ?_, ?_, ?_, ?_⟩
  · norm_num [TIERS, List.chain'_cons]
  · simp [TIERS, List.count_cons]
  · rfl
  · intro st; cases st <;> rfl
  · intro st; cases st <;> norm_num [RATES]

/-- C10: unit conversion — the base amount fed to the tier loop, reported as
`bidAmount`, is the parsed value multiplied by 10,000 under the 万元 unit and
the parsed value unchanged under the 元 unit. -/
theorem bid_amount_unit_conversion (st : ServiceType) (d : JSNum) (q : ℚ)
    (hq : 0 ≤ q) :
    (∀ r : CalcResult, calculationResult (JSNum.val q) InputUnit.wanyuan st d =
      some r → r.bidAmount = JSNum.val (q * 10000)) ∧
    (∀ r : CalcResult, calculationResult (JSNum.val q) InputUnit.yuan st d =
      some r → r.bidAmount = JSNum.val q) := by
  constructor <;> intro r hr <;> rw [calculationResult_val_eq q hq _ st d] at hr <;>
    obtain rfl := Option.some.inj hr <;> simp [bidQ]

set_option maxHeartbeats 1000000 in
/-- Witness for C10: 600 万元 is fed to the loop as 6,000,000 yuan. -/
theorem bid_amount_unit_conversion_witness :
    (⟨JSNum.val 67000, JSNum.val 56950, JSNum.val 6000000,
      [⟨"100万元以下", 1.50, JSNum.val 1000000, JSNum.val 15000⟩,
       ⟨"100-500万元", 1.10, JSNum.val 4000000, JSNum.val 44000⟩,
       ⟨"500-1000万元", 0.80, JSNum.val 1000000, JSNum.val 8000⟩],
      JSNum.val 85⟩ : CalcResult).bidAmount = JSNum.val (600 * 10000) :=
  (bid_amount_unit_conversion ServiceType.goods (JSNum.val 85) 600
    (by norm_num)).1 _
    (by norm_num +decide [calculationResult, tierData, TIERS, RATES, loopGo,
      min_def, max_def])
